import Mathlib

/-!
# EkVastuAppIos/Firebase.h

A verification development for the umbrella header `EkVastuAppIos/Firebase.h`.
The header is a straight-line sequence of preprocessor directives: an include
guard, two unconditional `#import`s and four conditional blocks whose conditions
are `__has_include` checks.  Each directive is embedded as a step on an explicit
preprocessor state; the header is the composition of those steps in source order.

An `#import` of a header that the build cannot find is a fatal error: processing
stops there and no later directive is reached.  An `#import` of a header that is
found includes it at most once per translation unit.  The contents of the
imported headers are not part of this file, so including a header is embedded as
an entry in the ordered log of included headers.
-/

namespace EkVastu

/-! ## Data model -/

/-- Preprocessor state threaded through the directives of a translation unit:
the names of the macros currently defined and the log of the headers included so
far by `#import`, oldest first. -/
structure PPState where
  macros : List String
  imports : List String
  deriving DecidableEq, Repr

/-- State at the start of a translation unit: nothing defined, nothing imported. -/
def PPState.empty : PPState := ⟨[], []⟩

/-- The directive `#ifndef m` enters its block exactly when `m` is not defined. -/
def PPState.defined (s : PPState) (m : String) : Bool := s.macros.contains m

/-- The directive `#define m` (object-like, empty replacement list). -/
def define (m : String) (s : PPState) : PPState :=
  { s with macros := m :: s.macros }

/-- Inclusion of a header that was found: `#import` includes a file at most once
per translation unit, so a header already in the log is not entered again. -/
def PPState.includeOnce (s : PPState) (h : String) : PPState :=
  if s.imports.contains h then s else { s with imports := s.imports ++ [h] }

/-- A fatal error of the preprocessor: the header that could not be found and the
state reached when processing stopped. -/
structure Abort where
  missing : String
  state : PPState
  deriving DecidableEq, Repr

/-- The operator `__has_include(<h>)` evaluated against the set `avail` of
headers that the build can find. -/
def has_include (avail : List String) (h : String) : Bool := avail.contains h

/-- The directive `#import <h>`: the header is looked up first; when it cannot be
found processing stops with a fatal error, otherwise it is included once. -/
def importHeader (avail : List String) (h : String) (s : PPState) :
    Except Abort PPState :=
  if has_include avail h then .ok (s.includeOnce h) else .error ⟨h, s⟩

/-- State in which processing ended: the final state of a successful run, or the
state at the fatal error. -/
def reached : Except Abort PPState → PPState
  | .ok s => s
  | .error e => e.state

/-! ## Header names occurring in the file -/

/-- Line 5. -/
def hFoundation : String := "Foundation/Foundation.h"
/-- Line 8. -/
def hCore : String := "FirebaseCore/FirebaseCore.h"
/-- Lines 11 and 12. -/
def hAuth : String := "FirebaseAuth/FirebaseAuth.h"
/-- Line 14, inside a comment only. -/
def hAuthSwift : String := "FirebaseAuth/FirebaseAuth-Swift.h"
/-- Lines 18 and 19. -/
def hFirestore : String := "FirebaseFirestore/FirebaseFirestore.h"
/-- Lines 20 and 21. -/
def hFirestoreInternal : String := "FirebaseFirestoreInternal/FirebaseFirestoreInternal.h"
/-- Lines 25 and 26. -/
def hStorage : String := "FirebaseStorage/FirebaseStorage.h"
/-- Lines 30 and 31. -/
def hDynamicLinks : String := "FirebaseDynamicLinks/FirebaseDynamicLinks.h"
/-- The include-guard macro of lines 2 and 3. -/
def guardMacro : String := "Firebase_h"

/-! ## The header -/

/-- Lines 10 to 15: the authentication block. -/
def authBlock (avail : List String) (s : PPState) : Except Abort PPState :=
  if has_include avail hAuth then importHeader avail hAuth s else .ok s

/-- Lines 17 to 22: the document-database block, an `#if` / `#elif` chain. -/
def firestoreBlock (avail : List String) (s : PPState) : Except Abort PPState :=
  if has_include avail hFirestore then importHeader avail hFirestore s
  else if has_include avail hFirestoreInternal then
    importHeader avail hFirestoreInternal s
  else .ok s

/-- Lines 24 to 27: the object-storage block. -/
def storageBlock (avail : List String) (s : PPState) : Except Abort PPState :=
  if has_include avail hStorage then importHeader avail hStorage s else .ok s

/-- Lines 29 to 32: the dynamic-links block. -/
def dynamicLinksBlock (avail : List String) (s : PPState) : Except Abort PPState :=
  if has_include avail hDynamicLinks then importHeader avail hDynamicLinks s else .ok s

/-- The whole file, lines 2 to 34: processing `Firebase.h` in state `s` when the
build can find exactly the headers in `avail`.  Processing stops at the first
`#import` whose header cannot be found. -/
def Firebase_h (avail : List String) (s : PPState) : Except Abort PPState :=
  if s.defined guardMacro then .ok s
  else do
    let s := define guardMacro s
    let s ← importHeader avail hFoundation s
    let s ← importHeader avail hCore s
    let s ← authBlock avail s
    let s ← firestoreBlock avail s
    let s ← storageBlock avail s
    let s ← dynamicLinksBlock avail s
    pure s

/-- The header as a function from the set of available headers to the list of
headers it imports when included at the start of a translation unit: the log of
the state in which processing ended. -/
def imported (avail : List String) : List String :=
  (reached (Firebase_h avail PPState.empty)).imports

/-! ## Vocabulary of the properties -/

/-- The conditional blocks of the file, in source order. -/
inductive Module where
  | auth
  | firestore
  | storage
  | dynamicLinks
  deriving DecidableEq, Repr

/-- Headers tested by the `__has_include` conditions of a module block. -/
def Module.headers : Module → List String
  | .auth => [hAuth]
  | .firestore => [hFirestore, hFirestoreInternal]
  | .storage => [hStorage]
  | .dynamicLinks => [hDynamicLinks]

/-- The part of an import log that belongs to module `m`. -/
def importsOf (m : Module) (log : List String) : List String :=
  log.filter (fun h => m.headers.contains h)

/-- Headers selected by the conditions of the four conditional blocks, lines 10
to 32, in source order. -/
def optionalImports (avail : List String) : List String :=
  (if hAuth ∈ avail then [hAuth] else []) ++
  (if hFirestore ∈ avail then [hFirestore]
    else if hFirestoreInternal ∈ avail then [hFirestoreInternal] else []) ++
  (if hStorage ∈ avail then [hStorage] else []) ++
  (if hDynamicLinks ∈ avail then [hDynamicLinks] else [])

/-- Headers whose `#import` is reached and resolved on a pass through the body of
the file: none when line 5 fails, the system header alone when line 8 fails, and
otherwise both unconditional headers followed by the selected optional ones. -/
def resolved (avail : List String) : List String :=
  if hFoundation ∈ avail then
    if hCore ∈ avail then hFoundation :: hCore :: optionalImports avail
    else [hFoundation]
  else []

/-! ## Auxiliary facts -/

section Aux

/-- Availability test as list membership. -/
theorem has_include_iff (avail : List String) (h : String) :
    has_include avail h = true ↔ h ∈ avail := by
  simp [has_include]

/-- An `#import` of an available header includes it once. -/
theorem importHeader_of_mem (avail : List String) (h : String) (s : PPState)
    (ha : h ∈ avail) : importHeader avail h s = .ok (s.includeOnce h) := by
  simp [importHeader, (has_include_iff avail h).2 ha]

/-- An `#import` of a header that cannot be found is a fatal error. -/
theorem importHeader_of_not_mem (avail : List String) (h : String) (s : PPState)
    (ha : h ∉ avail) : importHeader avail h s = .error ⟨h, s⟩ := by
  have hb : has_include avail h = false := by simpa [has_include] using ha
  simp [importHeader, hb]

/-- The guarded import of the authentication block always resolves. -/
theorem authBlock_eq (avail : List String) (s : PPState) :
    authBlock avail s =
      .ok ((if hAuth ∈ avail then [hAuth] else []).foldl PPState.includeOnce s) := by
  unfold authBlock
  by_cases h : hAuth ∈ avail
  · simp [(has_include_iff avail _).2 h, importHeader_of_mem avail _ s h, h]
  · simp [has_include, h]

/-- The guarded imports of the document-database block always resolve. -/
theorem firestoreBlock_eq (avail : List String) (s : PPState) :
    firestoreBlock avail s =
      .ok ((if hFirestore ∈ avail then [hFirestore]
            else if hFirestoreInternal ∈ avail then [hFirestoreInternal]
            else []).foldl PPState.includeOnce s) := by
  unfold firestoreBlock
  by_cases h : hFirestore ∈ avail
  · simp [(has_include_iff avail _).2 h, importHeader_of_mem avail _ s h, h]
  · by_cases h2 : hFirestoreInternal ∈ avail
    · simp [has_include, h, h2, importHeader_of_mem avail _ s h2]
    · simp [has_include, h, h2]

/-- The guarded import of the object-storage block always resolves. -/
theorem storageBlock_eq (avail : List String) (s : PPState) :
    storageBlock avail s =
      .ok ((if hStorage ∈ avail then [hStorage] else []).foldl PPState.includeOnce s) := by
  unfold storageBlock
  by_cases h : hStorage ∈ avail
  · simp [(has_include_iff avail _).2 h, importHeader_of_mem avail _ s h, h]
  · simp [has_include, h]

/-- The guarded import of the dynamic-links block always resolves. -/
theorem dynamicLinksBlock_eq (avail : List String) (s : PPState) :
    dynamicLinksBlock avail s =
      .ok ((if hDynamicLinks ∈ avail then [hDynamicLinks]
            else []).foldl PPState.includeOnce s) := by
  unfold dynamicLinksBlock
  by_cases h : hDynamicLinks ∈ avail
  · simp [(has_include_iff avail _).2 h, importHeader_of_mem avail _ s h, h]
  · simp [has_include, h]

/-- The four conditional blocks in sequence never fail. -/
theorem optional_blocks_eq (avail : List String) (s : PPState) :
    (do
      let s ← authBlock avail s
      let s ← firestoreBlock avail s
      let s ← storageBlock avail s
      let s ← dynamicLinksBlock avail s
      pure s) = (.ok ((optionalImports avail).foldl PPState.includeOnce s) :
        Except Abort PPState) := by
  simp only [authBlock_eq, firestoreBlock_eq, storageBlock_eq, dynamicLinksBlock_eq,
    optionalImports, List.foldl_append, bind, Except.bind, pure, Except.pure]

/-- With the guard already defined the file is skipped as a whole. -/
theorem Firebase_h_of_defined (avail : List String) (s : PPState)
    (h : s.defined guardMacro = true) : Firebase_h avail s = .ok s := by
  simp [Firebase_h, h]

/-- Outcome of the file on a state in which the guard is not yet defined. -/
theorem Firebase_h_of_not_defined (avail : List String) (s : PPState)
    (h : s.defined guardMacro = false) :
    Firebase_h avail s =
      if hFoundation ∈ avail then
        if hCore ∈ avail then
          .ok ((hFoundation :: hCore :: optionalImports avail).foldl PPState.includeOnce
            (define guardMacro s))
        else .error ⟨hCore, (define guardMacro s).includeOnce hFoundation⟩
      else .error ⟨hFoundation, define guardMacro s⟩ := by
  unfold Firebase_h
  simp only [h, Bool.false_eq_true, if_false]
  by_cases hf : hFoundation ∈ avail
  · by_cases hc : hCore ∈ avail
    · have e := optional_blocks_eq avail
        (((define guardMacro s).includeOnce hFoundation).includeOnce hCore)
      simp only [bind, Except.bind, pure, Except.pure] at e
      simp only [hf, hc, if_true, importHeader_of_mem avail _ _ hf,
        importHeader_of_mem avail _ _ hc, bind, Except.bind, pure, Except.pure,
        List.foldl_cons]
      exact e
    · simp only [hf, hc, if_true, if_false, importHeader_of_mem avail _ _ hf,
        importHeader_of_not_mem avail _ _ hc, bind, Except.bind]
  · simp only [hf, if_false, importHeader_of_not_mem avail _ _ hf, bind, Except.bind]

/-- State reached by the file, in every case: the input state when the guard is
defined, and otherwise the guard defined and the resolved headers included. -/
theorem reached_Firebase_h (avail : List String) (s : PPState) :
    reached (Firebase_h avail s) =
      if s.defined guardMacro then s
      else (resolved avail).foldl PPState.includeOnce (define guardMacro s) := by
  by_cases hg : s.defined guardMacro = true
  · simp [Firebase_h_of_defined avail s hg, hg, reached]
  · have hg2 : s.defined guardMacro = false := by simpa using hg
    rw [Firebase_h_of_not_defined avail s hg2]
    unfold resolved
    simp only [hg2, Bool.false_eq_true, if_false]
    split_ifs <;> simp [reached]

/-- Including a header does not touch the macros. -/
theorem includeOnce_macros (s : PPState) (h : String) :
    (s.includeOnce h).macros = s.macros := by
  unfold PPState.includeOnce
  split_ifs <;> rfl

/-- Including a list of headers does not touch the macros. -/
theorem foldl_includeOnce_macros (l : List String) (s : PPState) :
    (l.foldl PPState.includeOnce s).macros = s.macros := by
  induction l generalizing s with
  | nil => rfl
  | cons h t ih => rw [List.foldl_cons, ih, includeOnce_macros]

/-- Including a header leaves the number of entries of every other header alone. -/
theorem includeOnce_count (s : PPState) (h x : String) (hx : x ≠ h) :
    (s.includeOnce h).imports.count x = s.imports.count x := by
  unfold PPState.includeOnce
  split_ifs
  · rfl
  · simp [List.count_append, List.count_singleton, hx.symm]

/-- Including a list of headers leaves the entries of a header outside it alone. -/
theorem foldl_includeOnce_count (l : List String) (s : PPState) (x : String)
    (hx : x ∉ l) : (l.foldl PPState.includeOnce s).imports.count x = s.imports.count x := by
  induction l generalizing s with
  | nil => rfl
  | cons h t ih =>
    rw [List.foldl_cons, ih _ (fun hm => hx (List.mem_cons_of_mem _ hm)),
      includeOnce_count _ _ _ (fun e => hx (by rw [e]; exact List.mem_cons_self _ _))]

/-- The conflicting generated header is never among the resolved headers. -/
theorem hAuthSwift_not_mem_resolved (avail : List String) :
    hAuthSwift ∉ resolved avail := by
  unfold resolved optionalImports
  split_ifs <;> decide

/-- At the start of a translation unit the import list is the list of resolved
headers. -/
theorem imported_eq (avail : List String) : imported avail = resolved avail := by
  unfold imported
  rw [reached_Firebase_h]
  have hg : PPState.empty.defined guardMacro = false := by decide
  simp only [hg, Bool.false_eq_true, if_false]
  unfold resolved optionalImports
  split_ifs <;> decide

/-- The state reached by the file always has the guard defined. -/
theorem reached_defined (avail : List String) (s : PPState) :
    (reached (Firebase_h avail s)).defined guardMacro = true := by
  rw [reached_Firebase_h]
  by_cases hg : s.defined guardMacro = true
  · rw [if_pos hg]
    exact hg
  · rw [if_neg hg]
    simp [PPState.defined, foldl_includeOnce_macros, define]

/-- The imports of one module at the start of a translation unit: none unless
both unconditional imports resolve, and then determined by the availability of
that module's own headers. -/
theorem importsOf_imported (m : Module) (avail : List String) :
    importsOf m (imported avail) =
      if hFoundation ∈ avail ∧ hCore ∈ avail then
        match m with
        | .auth => if hAuth ∈ avail then [hAuth] else []
        | .firestore =>
            if hFirestore ∈ avail then [hFirestore]
            else if hFirestoreInternal ∈ avail then [hFirestoreInternal] else []
        | .storage => if hStorage ∈ avail then [hStorage] else []
        | .dynamicLinks => if hDynamicLinks ∈ avail then [hDynamicLinks] else []
      else [] := by
  rw [imported_eq]
  unfold resolved
  by_cases hf : hFoundation ∈ avail
  · by_cases hc : hCore ∈ avail
    · simp only [hf, hc, and_self, if_true]
      unfold optionalImports importsOf
      cases m <;> simp only [Module.headers] <;> split_ifs <;> decide
    · simp only [hf, hc, and_false, if_true, if_false]
      cases m <;> decide
  · simp only [hf, false_and, if_false]
    cases m <;> decide

end Aux

/-! ## Properties of the header -/

/-- C1, as stated, fails: in a build with the system header and the
authentication header but without the core header, the authentication header is
available and yet is not imported, because processing stops at line 8. -/
theorem available_auth_not_imported :
    hAuth ∈ [hFoundation, hAuth] ∧
    hAuth ∉ imported [hFoundation, hAuth] ∧
    Firebase_h [hFoundation, hAuth] PPState.empty
      = .error ⟨hCore, ⟨[guardMacro], [hFoundation]⟩⟩ := by
  refine ⟨by decide, by decide, rfl⟩

/-- C1, amended: for every availability set, an optional module header
(authentication, document database, object storage, dynamic links) that is in
the list of imported headers is available; and when the two unconditionally
imported headers are available, each of the four is in the list if and only if it
is available. -/
theorem optional_header_imported_iff_available (avail : List String) :
    ((hAuth ∈ imported avail → hAuth ∈ avail) ∧
      (hFirestore ∈ imported avail → hFirestore ∈ avail) ∧
      (hStorage ∈ imported avail → hStorage ∈ avail) ∧
      (hDynamicLinks ∈ imported avail → hDynamicLinks ∈ avail)) ∧
    (hFoundation ∈ avail → hCore ∈ avail →
      (hAuth ∈ imported avail ↔ hAuth ∈ avail) ∧
      (hFirestore ∈ imported avail ↔ hFirestore ∈ avail) ∧
      (hStorage ∈ imported avail ↔ hStorage ∈ avail) ∧
      (hDynamicLinks ∈ imported avail ↔ hDynamicLinks ∈ avail)) := by
  rw [imported_eq]
  unfold resolved optionalImports
  refine ⟨⟨?_, ?_, ?_, ?_⟩, fun hf hc => ⟨?_, ?_, ?_, ?_⟩⟩ <;>
    split_ifs <;>
    simp_all [hFoundation, hCore, hAuth, hFirestore, hFirestoreInternal, hStorage,
      hDynamicLinks]

/-- Witness for `optional_header_imported_iff_available`: a build with both
unconditional headers, authentication and dynamic links. -/
theorem optional_header_imported_iff_available_witness :
    (hAuth ∈ imported [hDynamicLinks, hCore, hFoundation, hAuth] ↔
      hAuth ∈ [hDynamicLinks, hCore, hFoundation, hAuth]) ∧
    (hFirestore ∈ imported [hDynamicLinks, hCore, hFoundation, hAuth] ↔
      hFirestore ∈ [hDynamicLinks, hCore, hFoundation, hAuth]) ∧
    (hStorage ∈ imported [hDynamicLinks, hCore, hFoundation, hAuth] ↔
      hStorage ∈ [hDynamicLinks, hCore, hFoundation, hAuth]) ∧
    (hDynamicLinks ∈ imported [hDynamicLinks, hCore, hFoundation, hAuth] ↔
      hDynamicLinks ∈ [hDynamicLinks, hCore, hFoundation, hAuth]) :=
  (optional_header_imported_iff_available [hDynamicLinks, hCore, hFoundation, hAuth]).2
    (by decide) (by decide)

/-- C2, as stated, fails: with every module header available except the core
one, the core header (an SDK header, not in the availability set) is still
requested on line 8 and preprocessing stops with the fatal error naming it. -/
theorem core_missing_breaks_build :
    hCore ≠ hFoundation ∧
    hCore ∉ [hFoundation, hAuth, hFirestore, hStorage, hDynamicLinks] ∧
    Firebase_h [hFoundation, hAuth, hFirestore, hStorage, hDynamicLinks] PPState.empty
      = .error ⟨hCore, ⟨[guardMacro], [hFoundation]⟩⟩ := by
  refine ⟨by decide, by decide, rfl⟩

/-- C2, amended: for every availability set that contains the core header, every
SDK header the file imports is available, so each absent optional module is
omitted rather than imported; and when the system header is available as well,
preprocessing succeeds, in every state, and ends with the guard defined and the
two unconditional headers and the selected optional headers included. -/
theorem imports_available_of_core (avail : List String) (hc : hCore ∈ avail) :
    (∀ h ∈ imported avail, h ≠ hFoundation → h ∈ avail) ∧
    (hFoundation ∈ avail → ∀ s, Firebase_h avail s =
      .ok (if s.defined guardMacro then s
        else (hFoundation :: hCore :: optionalImports avail).foldl PPState.includeOnce
          (define guardMacro s))) := by
  constructor
  · intro h hmem hne
    rw [imported_eq] at hmem
    unfold resolved at hmem
    simp only [hc, if_true] at hmem
    split_ifs at hmem
    · rcases List.mem_cons.1 hmem with rfl | hmem
      · exact absurd rfl hne
      rcases List.mem_cons.1 hmem with rfl | hmem
      · exact hc
      unfold optionalImports at hmem
      split_ifs at hmem <;> simp at hmem <;> aesop
    · simp at hmem
  · intro hf s
    by_cases hg : s.defined guardMacro = true
    · rw [Firebase_h_of_defined avail s hg, if_pos hg]
    · rw [Firebase_h_of_not_defined avail s (by simpa using hg), if_pos hf, if_pos hc,
        if_neg hg]

/-- Witness for `imports_available_of_core`: a build with the system header, the
core module and object storage only. -/
theorem imports_available_of_core_witness :
    (∀ h ∈ imported [hFoundation, hCore, hStorage], h ≠ hFoundation →
        h ∈ [hFoundation, hCore, hStorage]) ∧
    (hFoundation ∈ [hFoundation, hCore, hStorage] →
      ∀ s, Firebase_h [hFoundation, hCore, hStorage] s =
        .ok (if s.defined guardMacro then s
          else (hFoundation :: hCore ::
              optionalImports [hFoundation, hCore, hStorage]).foldl PPState.includeOnce
            (define guardMacro s))) :=
  imports_available_of_core [hFoundation, hCore, hStorage] (by decide)

/-- C3, as stated, fails: two builds that agree on the authentication header, one
with the core header and one without, do not import the same authentication
headers, because the second stops at line 8. -/
theorem auth_imports_depend_on_core :
    (∀ h ∈ Module.auth.headers,
      h ∈ [hFoundation, hCore, hAuth] ↔ h ∈ [hFoundation, hAuth]) ∧
    importsOf .auth (imported [hFoundation, hCore, hAuth]) = [hAuth] ∧
    importsOf .auth (imported [hFoundation, hAuth]) = [] := by
  refine ⟨by decide, by decide, by decide⟩

/-- C3, amended: modules are independent of each other.  For every module and
every two availability sets that agree on the availability of that module's own
headers and on whether the two unconditionally imported headers are both
available, the headers of that module which the file imports are exactly the
same in both builds, whatever the availability of any other header. -/
theorem module_imports_independent (m : Module) (a b : List String)
    (hab : ∀ h ∈ m.headers, h ∈ a ↔ h ∈ b)
    (hbase : (hFoundation ∈ a ∧ hCore ∈ a) ↔ (hFoundation ∈ b ∧ hCore ∈ b)) :
    importsOf m (imported a) = importsOf m (imported b) := by
  rw [importsOf_imported, importsOf_imported]
  cases m <;> simp only [Module.headers, List.mem_cons, List.mem_singleton, List.not_mem_nil,
    or_false, forall_eq_or_imp, forall_eq] at hab <;> simp [hab, hbase]

/-- Witness for `module_imports_independent`: the document-database imports of
two successful builds that both have only the internal Firestore header and
differ in every other module; both import exactly that header. -/
theorem module_imports_independent_witness :
    importsOf .firestore
        (imported [hFoundation, hCore, hFirestoreInternal, hAuth, hDynamicLinks]) =
      importsOf .firestore (imported [hCore, hStorage, hFirestoreInternal, hFoundation]) ∧
    importsOf .firestore (imported [hCore, hStorage, hFirestoreInternal, hFoundation]) =
      [hFirestoreInternal] :=
  ⟨module_imports_independent .firestore
    [hFoundation, hCore, hFirestoreInternal, hAuth, hDynamicLinks]
    [hCore, hStorage, hFirestoreInternal, hFoundation] (by decide) (by decide), by decide⟩

/-- C4: the conflicting generated header `FirebaseAuth/FirebaseAuth-Swift.h` is
never imported: it is absent from the import list for every availability set,
and processing the file in any state adds no occurrence of it to the log. -/
theorem auth_swift_never_imported (avail : List String) :
    hAuthSwift ∉ imported avail ∧
    ∀ s : PPState,
      (reached (Firebase_h avail s)).imports.count hAuthSwift =
        s.imports.count hAuthSwift := by
  constructor
  · rw [imported_eq]
    exact hAuthSwift_not_mem_resolved avail
  · intro s
    rw [reached_Firebase_h]
    split_ifs
    · rfl
    · rw [foldl_includeOnce_count _ _ _ (hAuthSwift_not_mem_resolved avail)]
      rfl

/-- C5, as stated, fails: in a build with the system header and the internal
Firestore header but without the core header, the public Firestore header is
unavailable and the internal one available, yet the internal one is not
imported, because processing stops at line 8. -/
theorem firestore_internal_not_imported :
    hFirestore ∉ [hFoundation, hFirestoreInternal] ∧
    hFirestoreInternal ∈ [hFoundation, hFirestoreInternal] ∧
    hFirestoreInternal ∉ imported [hFoundation, hFirestoreInternal] ∧
    Firebase_h [hFoundation, hFirestoreInternal] PPState.empty
      = .error ⟨hCore, ⟨[guardMacro], [hFoundation]⟩⟩ := by
  refine ⟨by decide, by decide, by decide, rfl⟩

/-- C5, amended: document-database fallback.  For every availability set, the
internal Firestore header is imported only if the public one is unavailable and
the internal one is available, the two are never imported together, and the
internal one is not imported when the public one is available.  When the two
unconditionally imported headers are available, the internal header is imported
exactly when the public one is unavailable and the internal one is available,
and when both are available only the public one is imported. -/
theorem firestore_fallback (avail : List String) :
    (hFirestoreInternal ∈ imported avail →
      hFirestore ∉ avail ∧ hFirestoreInternal ∈ avail) ∧
    ¬ (hFirestore ∈ imported avail ∧ hFirestoreInternal ∈ imported avail) ∧
    (hFirestore ∈ avail → hFirestoreInternal ∉ imported avail) ∧
    (hFoundation ∈ avail → hCore ∈ avail →
      (hFirestoreInternal ∈ imported avail ↔
        hFirestore ∉ avail ∧ hFirestoreInternal ∈ avail) ∧
      (hFirestore ∈ avail → hFirestoreInternal ∈ avail →
        hFirestore ∈ imported avail ∧ hFirestoreInternal ∉ imported avail)) := by
  rw [imported_eq]
  unfold resolved optionalImports
  refine ⟨?_, ?_, ?_, fun hf hc => ⟨?_, ?_⟩⟩ <;>
    split_ifs <;>
    simp_all [hFoundation, hCore, hAuth, hFirestore, hFirestoreInternal, hStorage,
      hDynamicLinks]

/-- Witness for `firestore_fallback`: a successful build with both Firestore
headers, in which only the public one is imported. -/
theorem firestore_fallback_witness :
    hFirestore ∈ imported [hFirestoreInternal, hFoundation, hFirestore, hCore] ∧
    hFirestoreInternal ∉ imported [hFirestoreInternal, hFoundation, hFirestore, hCore] :=
  ((firestore_fallback [hFirestoreInternal, hFoundation, hFirestore, hCore]).2.2.2
    (by decide) (by decide)).2 (by decide) (by decide)

/-- C7: include-guard idempotence.  Processing the file with `Firebase_h`
undefined defines it; processing it with `Firebase_h` defined succeeds and
changes neither the import log nor the macros; hence a second inclusion, under
any availability set, yields the state of the first. -/
theorem include_guard_idempotent (avail : List String) (s : PPState) :
    (s.defined guardMacro = false →
      (reached (Firebase_h avail s)).macros = guardMacro :: s.macros ∧
      (reached (Firebase_h avail s)).defined guardMacro = true) ∧
    (s.defined guardMacro = true → Firebase_h avail s = .ok s) ∧
    (∀ avail2, Firebase_h avail2 (reached (Firebase_h avail s)) =
      .ok (reached (Firebase_h avail s))) ∧
    (reached (Firebase_h avail (reached (Firebase_h avail PPState.empty)))).imports =
      imported avail := by
  refine ⟨fun hg => ⟨?_, reached_defined avail s⟩, Firebase_h_of_defined avail s, ?_, ?_⟩
  · rw [reached_Firebase_h, hg]
    simp only [Bool.false_eq_true, if_false, foldl_includeOnce_macros, define]
  · intro avail2
    exact Firebase_h_of_defined avail2 _ (reached_defined avail s)
  · rw [Firebase_h_of_defined avail _ (reached_defined avail PPState.empty)]
    rfl

end EkVastu
